import Mathlib

/-!
Shallow embedding of `src/tools/assembler/assembler.c` (8bit cpu assembler,
v0.2): a two-pass assembler translating mnemonic source for a fixed 8-bit
CPU into a 256-byte memory image.

Tokens are modelled as `List Char` (the assembler's `strtok` output: nonempty,
whitespace-free NUL-terminated C strings).  A character read `token[i]` is
modelled by `cidx`, which returns `some` for indices inside the string
(including the terminating NUL at index `length`, a valid read in C) and
`none` for reads outside the buffer.  Machine byte values are plain `Nat`;
the single place the C code performs a narrowing conversion — the
`(int) strtol(...)` in `handle_opcode_and_operand` — is modelled explicitly
with a clamp at `LONG_MAX` (the `strtol` saturation) followed by wrap-around
to a signed 32-bit value (LP64 target, the platform the repository builds on).
-/

namespace Asm8

/-- `isxdigit` from ctype.h: ASCII hexadecimal digits. -/
def isxdigit (c : Char) : Bool :=
  (decide ('0' ≤ c) && decide (c ≤ '9')) ||
  (decide ('a' ≤ c) && decide (c ≤ 'f')) ||
  (decide ('A' ≤ c) && decide (c ≤ 'F'))

/-- Value of one hexadecimal digit (0 for non-digits; only applied to digits). -/
def hexDigitVal (c : Char) : Nat :=
  if '0' ≤ c ∧ c ≤ '9' then c.toNat - 48
  else if 'a' ≤ c ∧ c ≤ 'f' then c.toNat - 87
  else if 'A' ≤ c ∧ c ≤ 'F' then c.toNat - 55
  else 0

/-- Read `token[i]` from a C string whose characters are `t`.  Indices
`0 ≤ i < t.length` yield the corresponding character, index `t.length`
yields the terminating NUL (still inside the buffer), anything else is an
out-of-bounds access, modelled as `none`. -/
def cidx (t : List Char) (i : Int) : Option Char :=
  if h : 0 ≤ i ∧ i < (t.length : Int) then
    some (t.get ⟨i.toNat, by omega⟩)
  else if i = (t.length : Int) then some (Char.ofNat 0)
  else none

/-- `is_hex_str` (assembler.c:177): every character up to the NUL is a hex
digit; the empty string passes vacuously. -/
def is_hex_str (s : List Char) : Bool := s.all isxdigit

/-- `is_abs` (assembler.c:205): `token[0] == '$' && token[strlen-2] != ','`,
with C's short-circuit `&&`.  `none` marks an out-of-bounds read. -/
def is_abs? (t : List Char) : Option Bool := do
  let c0 ← cidx t 0
  if c0 = '$' then
    let c1 ← cidx t ((t.length : Int) - 2)
    pure (decide (c1 ≠ ','))
  else pure false

/-- `is_idx` (assembler.c:219): `$` head, `,` at `strlen-2`, `a` at `strlen-1`. -/
def is_idx? (t : List Char) : Option Bool := do
  let c0 ← cidx t 0
  if c0 = '$' then
    let c1 ← cidx t ((t.length : Int) - 2)
    if c1 = ',' then
      let c2 ← cidx t ((t.length : Int) - 1)
      pure (decide (c2 = 'a'))
    else pure false
  else pure false

/-- `is_imm` (assembler.c:234): nothing beyond `token[0] == '#'`. -/
def is_imm? (t : List Char) : Option Bool := do
  let c0 ← cidx t 0
  pure (decide (c0 = '#'))

/-- `is_idx_ind` (assembler.c:245): `($` head, `,` at `strlen-3`, `a` at
`strlen-2`, `)` at `strlen-1`. -/
def is_idx_ind? (t : List Char) : Option Bool := do
  let c0 ← cidx t 0
  if c0 = '(' then
    let c1 ← cidx t 1
    if c1 = '$' then
      let c2 ← cidx t ((t.length : Int) - 3)
      if c2 = ',' then
        let c3 ← cidx t ((t.length : Int) - 2)
        if c3 = 'a' then
          let c4 ← cidx t ((t.length : Int) - 1)
          pure (decide (c4 = ')'))
        else pure false
      else pure false
    else pure false
  else pure false

/-- `is_ind` (assembler.c:262): `($` head, no `,` at `strlen-3`, no `a` at
`strlen-2`, `)` at `strlen-1`. -/
def is_ind? (t : List Char) : Option Bool := do
  let c0 ← cidx t 0
  if c0 = '(' then
    let c1 ← cidx t 1
    if c1 = '$' then
      let c2 ← cidx t ((t.length : Int) - 3)
      if c2 ≠ ',' then
        let c3 ← cidx t ((t.length : Int) - 2)
        if c3 ≠ 'a' then
          let c4 ← cidx t ((t.length : Int) - 1)
          pure (decide (c4 = ')'))
        else pure false
      else pure false
    else pure false
  else pure false

/-- `is_ind_idx` (assembler.c:279): `($` head, no `)` at `strlen-3`, no `,`
at `strlen-2`, `a` at `strlen-1`. -/
def is_ind_idx? (t : List Char) : Option Bool := do
  let c0 ← cidx t 0
  if c0 = '(' then
    let c1 ← cidx t 1
    if c1 = '$' then
      let c2 ← cidx t ((t.length : Int) - 3)
      if c2 ≠ ')' then
        let c3 ← cidx t ((t.length : Int) - 2)
        if c3 ≠ ',' then
          let c4 ← cidx t ((t.length : Int) - 1)
          pure (decide (c4 = 'a'))
        else pure false
      else pure false
    else pure false
  else pure false

/-- Boolean projection: the C predicate returned nonzero (out-of-bounds
evaluations, which are undefined behaviour in the C, project to `false`). -/
def is_abs (t : List Char) : Bool := decide (is_abs? t = some true)

def is_idx (t : List Char) : Bool := decide (is_idx? t = some true)

def is_imm (t : List Char) : Bool := decide (is_imm? t = some true)

def is_idx_ind (t : List Char) : Bool := decide (is_idx_ind? t = some true)

def is_ind (t : List Char) : Bool := decide (is_ind? t = some true)

def is_ind_idx (t : List Char) : Bool := decide (is_ind_idx? t = some true)

/-- `struct opcode` (assembler.c:50): a mnemonic and its microcode byte per
addressing mode; `0` is the "unsupported" sentinel. -/
structure opcode where
  mnemonic : List Char
  a : Nat
  a_abs : Nat
  a_imm : Nat
  a_idx : Nat
  a_idx_ind : Nat
  a_ind : Nat
  a_ind_idx : Nat
  a_label : Nat
deriving DecidableEq, Repr

/-- `OPCODES` (assembler.c:74): the instruction catalog, 33 rows. -/
def OPCODES : List opcode :=
  [ ⟨['a','d','c'], 0x00, 0x5a, 0x57, 0x00, 0x00, 0x00, 0x00, 0x00⟩,
    ⟨['a','n','d'], 0x00, 0x70, 0x6d, 0x00, 0x00, 0x00, 0x00, 0x00⟩,
    ⟨['a','s','l'], 0x8b, 0x00, 0x00, 0x00, 0x00, 0x00, 0x00, 0x00⟩,
    ⟨['b','c','c'], 0x00, 0x00, 0x98, 0x00, 0x00, 0x00, 0x00, 0x98⟩,
    ⟨['b','c','s'], 0x00, 0x00, 0x9a, 0x00, 0x00, 0x00, 0x00, 0x9a⟩,
    ⟨['b','e','q'], 0x00, 0x00, 0x9e, 0x00, 0x00, 0x00, 0x00, 0x9e⟩,
    ⟨['b','m','i'], 0x00, 0x00, 0x96, 0x00, 0x00, 0x00, 0x00, 0x96⟩,
    ⟨['b','n','e'], 0x00, 0x00, 0x9c, 0x00, 0x00, 0x00, 0x00, 0x9c⟩,
    ⟨['b','p','l'], 0x00, 0x00, 0x94, 0x00, 0x00, 0x00, 0x00, 0x94⟩,
    ⟨['c','i','b'], 0xd7, 0x00, 0x00, 0x00, 0x00, 0x00, 0x00, 0x00⟩,
    ⟨['c','l','c'], 0xa2, 0x00, 0x00, 0x00, 0x00, 0x00, 0x00, 0x00⟩,
    ⟨['c','m','p'], 0x00, 0xa6, 0xa4, 0x00, 0x00, 0x00, 0x00, 0x00⟩,
    ⟨['d','e','c'], 0x6a, 0x00, 0x00, 0x00, 0x00, 0x00, 0x00, 0x00⟩,
    ⟨['e','o','r'], 0x00, 0x80, 0x7d, 0x00, 0x00, 0x00, 0x00, 0x00⟩,
    ⟨['i','n','c'], 0x67, 0x00, 0x00, 0x00, 0x00, 0x00, 0x00, 0x00⟩,
    ⟨['j','m','p'], 0x00, 0xba, 0xb8, 0x00, 0x00, 0x00, 0x00, 0xb8⟩,
    ⟨['j','s','r'], 0x00, 0xc8, 0xbe, 0x00, 0x00, 0x00, 0x00, 0xbe⟩,
    ⟨['l','d','a'], 0x00, 0x08, 0x06, 0x00, 0x00, 0x0c, 0x00, 0x00⟩,
    ⟨['l','d','b'], 0x00, 0x14, 0x12, 0xd9, 0x25, 0x18, 0x1e, 0x00⟩,
    ⟨['l','s','l'], 0x85, 0x00, 0x00, 0x00, 0x00, 0x00, 0x00, 0x00⟩,
    ⟨['l','s','r'], 0x88, 0x00, 0x00, 0x00, 0x00, 0x00, 0x00, 0x00⟩,
    ⟨['o','r','a'], 0x00, 0x78, 0x75, 0x00, 0x00, 0x00, 0x00, 0x00⟩,
    ⟨['p','h','a'], 0xaa, 0x00, 0x00, 0x00, 0x00, 0x00, 0x00, 0x00⟩,
    ⟨['p','o','p'], 0xb2, 0x00, 0x00, 0x00, 0x00, 0x00, 0x00, 0x00⟩,
    ⟨['r','o','l'], 0x8e, 0x00, 0x00, 0x00, 0x00, 0x00, 0x00, 0x00⟩,
    ⟨['r','o','r'], 0x91, 0x00, 0x00, 0x00, 0x00, 0x00, 0x00, 0x00⟩,
    ⟨['r','t','s'], 0xd1, 0x00, 0x00, 0x00, 0x00, 0x00, 0x00, 0x00⟩,
    ⟨['s','b','c'], 0x00, 0x62, 0x5f, 0x00, 0x00, 0x00, 0x00, 0x00⟩,
    ⟨['s','e','c'], 0xa0, 0x00, 0x00, 0x00, 0x00, 0x00, 0x00, 0x00⟩,
    ⟨['s','t','a'], 0x00, 0x2c, 0x00, 0x00, 0x00, 0x30, 0x00, 0x00⟩,
    ⟨['s','t','b'], 0x00, 0x3b, 0x00, 0x36, 0x4c, 0x3f, 0x45, 0x00⟩,
    ⟨['t','a','b'], 0x53, 0x00, 0x00, 0x00, 0x00, 0x00, 0x00, 0x00⟩,
    ⟨['t','b','a'], 0x55, 0x00, 0x00, 0x00, 0x00, 0x00, 0x00, 0x00⟩ ]

/-- Row access with a harmless default (all lookups in the development use
indices produced by `find_opcode_index`, which are in range). -/
def opAt (i : Nat) : opcode :=
  (OPCODES.get? i).getD ⟨[], 0, 0, 0, 0, 0, 0, 0, 0⟩

/-- `find_opcode_index` (assembler.c:334): first row whose 3-character
mnemonic equals the token's first three characters (`strncmp(..., 3)`;
the mnemonic fields hold exactly 3 non-NUL characters, so a match requires
the token to be at least 3 characters long and agree on all three). -/
def find_opcode_index (tok : List Char) : Option Nat :=
  OPCODES.findIdx? (fun o => decide (o.mnemonic = tok.take 3))

/-- `is_valid_address` (assembler.c:307), with C's evaluation order and
short-circuiting: a mode's predicate is consulted only when the opcode's
byte for that mode is nonzero. -/
def is_valid_address (op : opcode) (t : List Char) : Bool :=
  (decide (op.a_abs ≠ 0) && is_abs t) ||
  (decide (op.a_ind ≠ 0) && is_ind t) ||
  (decide (op.a_imm ≠ 0) && is_imm t) ||
  (decide (op.a_ind_idx ≠ 0) && is_ind_idx t) ||
  (decide (op.a_idx_ind ≠ 0) && is_idx_ind t) ||
  (decide (op.a_idx ≠ 0) && is_idx t)

/-- The errors the assembler can report (section 7 of the design), plus
`UninitStripped` for the one path where the C would read an uninitialized
pointer (no classifier predicate matched inside
`handle_opcode_and_operand`; unreachable from `main`, which only calls it
after `is_valid_address` succeeded). -/
inductive AsmError where
  | UnknownMnemonic
  | InvalidOperand
  | InvalidAddressFormat
  | InvalidAddressRange
  | LabelTooLong
  | LabelTableFull
  | JumpTableFull
  | ProgramTooLarge
  | UndefinedLabel
  | UninitStripped
deriving DecidableEq, Repr

/-- The program memory (`int program[256]`) together with the log of indices
written, in write order.  The log makes the claims about which cells an
execution touches expressible. -/
structure Mach where
  mem : Nat → Nat
  writes : List Nat

/-- `program[i] = v`. -/
def wr (m : Mach) (i v : Nat) : Mach :=
  ⟨fun j => if j = i then v else m.mem j, m.writes ++ [i]⟩

/-- `strtol(s, NULL, 16)` on a string of pure hex digits: the value of the
literal, saturated at `LONG_MAX`. -/
def strtol16 (s : List Char) : Int :=
  min ((s.foldl (fun a c => 16 * a + hexDigitVal c) 0 : Nat) : Int) (2 ^ 63 - 1)

/-- The `(int)` narrowing of a non-negative `long`: wrap modulo `2^32` into
the signed 32-bit range. -/
def toInt32 (v : Int) : Int :=
  if v % 2 ^ 32 < 2 ^ 31 then v % 2 ^ 32 else v % 2 ^ 32 - 2 ^ 32

/-- `handle_opcode` (assembler.c:362): emit `(implicit_byte, 0x00)`. -/
def handle_opcode (m : Mach) (index : Nat) (op : opcode) : Mach :=
  wr (wr m index op.a) (index + 1) 0x00

/-- The branch chain of `handle_opcode_and_operand` (assembler.c:380):
picks the addressing mode (same order as the C: imm, idx, abs, ind,
ind_idx, idx_ind) and yields the mode byte and the stripped literal;
`none` is the fall-through where the C leaves `stripped_addr`
uninitialized.  `handle_opcode_and_operand` below then writes the mode
byte and only afterwards validates the remaining literal — so on
`InvalidAddressFormat` / `InvalidAddressRange` the mode byte is already
in memory.

Stripping notes, mirroring the in-place NUL writes of the C:
- idx: `stripped = addr+1; stripped[strlen-2] = 0` keeps the first
  `len-3` characters of `addr+1` (`is_idx` forces `len ≥ 3`);
- ind: `stripped = addr+2; stripped[strlen-1] = 0` keeps the first
  `len-3` characters of `addr+2` (`is_ind` forces `len ≥ 3`);
- ind_idx / idx_ind: `stripped = addr+2; stripped[strlen-3] = 0`: when
  `strlen(stripped) < 3` (tokens of length 3 or 4) the NUL lands *before*
  the substring, inside the token buffer, leaving the literal unchanged. -/
def branchOf (op : opcode) (addr : List Char) : Option (Nat × List Char) :=
  if is_imm addr then
    some (op.a_imm, addr.drop 2)
  else if is_idx addr then
    some (op.a_idx, (addr.drop 1).take (addr.length - 3))
  else if is_abs addr then
    some (op.a_abs, addr.drop 1)
  else if is_ind addr then
    some (op.a_ind, (addr.drop 2).take (addr.length - 3))
  else if is_ind_idx addr then
    some (op.a_ind_idx,
      if 3 ≤ (addr.drop 2).length then (addr.drop 2).take (addr.length - 5)
      else addr.drop 2)
  else if is_idx_ind addr then
    some (op.a_idx_ind,
      if 3 ≤ (addr.drop 2).length then (addr.drop 2).take (addr.length - 5)
      else addr.drop 2)
  else none

def handle_opcode_and_operand (m : Mach) (index : Nat) (op : opcode)
    (addr : List Char) : Except (AsmError × Mach) Mach :=
  match branchOf op addr with
  | none => .error (.UninitStripped, m)
  | some (modeByte, stripped) =>
    let m1 := wr m index modeByte
    if is_hex_str stripped = false then
      .error (.InvalidAddressFormat, m1)
    else
      let hex_int : Int := toInt32 (strtol16 stripped)
      if hex_int < 0 ∨ hex_int > 255 then
        .error (.InvalidAddressRange, m1)
      else
        .ok (wr m1 (index + 1) hex_int.toNat)

/-- The mutable state of `main`'s token loop: memory with write log, the
program counter `program_adr`, the pending two-byte opcode (`opcode_index`,
`none` for the C's `-1`), the label table and the forward-reference
("jump") table.  Table entries are `(memory_addr, label)` pairs, as in
`struct label`. -/
structure St where
  mach : Mach
  programAdr : Nat
  pending : Option Nat
  labelTable : List (Nat × List Char)
  jumpTable : List (Nat × List Char)

/-- The overflow check at the bottom of the token loop (assembler.c:675):
`program_adr > PROGRAM_MEMORY_SIZE` — note `>`, not `≥`. -/
def checkSize (st : St) : Except (AsmError × St) St :=
  if st.programAdr > 256 then .error (.ProgramTooLarge, st) else .ok st

/-- One iteration of the token loop of `main` (assembler.c:543-687).
Errors carry the state at the moment of `exit(EXIT_FAILURE)`. -/
def step (st : St) (token : List Char) : Except (AsmError × St) St :=
  match st.pending with
  | some opIdx =>
    let op := opAt opIdx
    if is_valid_address op token then
      match handle_opcode_and_operand st.mach st.programAdr op token with
      | .error (e, m) => .error (e, { st with mach := m })
      | .ok m =>
        checkSize { st with mach := m, pending := none,
                            programAdr := st.programAdr + 2 }
    else if op.a_label ≠ 0 then
      if st.jumpTable.length > 64 then .error (.JumpTableFull, st)
      else if token.length > 32 then .error (.LabelTooLong, st)
      else
        let m := wr (wr st.mach st.programAdr op.a_label) (st.programAdr + 1) 0x00
        checkSize { st with mach := m, pending := none,
                            jumpTable := st.jumpTable ++ [(st.programAdr + 1, token)],
                            programAdr := st.programAdr + 2 }
    else .error (.InvalidOperand, st)
  | none =>
    match find_opcode_index token with
    | some op =>
      if (opAt op).a = 0 then
        checkSize { st with pending := some op }
      else
        checkSize { st with mach := handle_opcode st.mach st.programAdr (opAt op),
                            programAdr := st.programAdr + 2 }
    | none =>
      if token.getLast? = some ':' then
        let name := token.dropLast
        if st.labelTable.length > 32 then .error (.LabelTableFull, st)
        else if name.length > 32 then .error (.LabelTooLong, st)
        else
          checkSize { st with labelTable := st.labelTable ++ [(st.programAdr, name)] }
      else .error (.UnknownMnemonic, st)

/-- The token loop: fold `step` over the token stream (comments and line
structure have already been handled by `remove_comments` / `strtok`). -/
def processTokens : List (List Char) → St → Except (AsmError × St) St
  | [], st => .ok st
  | t :: ts, st =>
    match step st t with
    | .error e => .error e
    | .ok st1 => processTokens ts st1

/-- Initial state of `main`: empty memory, cursor 0, no pending opcode,
empty tables. -/
def initSt : St := ⟨⟨fun _ => 0, []⟩, 0, none, [], []⟩

/-- First matching entry of the label table (the resolver's inner loop
breaks on the first `strcmp` hit). -/
def lookupLabel (lt : List (Nat × List Char)) (name : List Char) : Option Nat :=
  (lt.find? (fun e => decide (e.2 = name))).map (fun e => e.1)

/-- The symbol resolver (assembler.c:698-718): patch each forward
reference, in recorded order, with the first matching label's address;
fail with `UndefinedLabel` on a miss. -/
def resolve (jt : List (Nat × List Char)) (lt : List (Nat × List Char))
    (m : Mach) : Except AsmError Mach :=
  match jt with
  | [] => .ok m
  | (adr, name) :: rest =>
    match lookupLabel lt name with
    | some v => resolve rest lt (wr m adr v)
    | none => .error .UndefinedLabel

/-- The whole pipeline on a token stream: token loop, then resolver, then
the output artifact — the first `program_adr` memory bytes, exactly what
`print_and_save_program` serializes.  Any error aborts before the output
exists (the C calls `exit` before opening the output file). -/
def runAsm (tokens : List (List Char)) : Except AsmError (List Nat) :=
  match processTokens tokens initSt with
  | .error (e, _) => .error e
  | .ok st =>
    match resolve st.jumpTable st.labelTable st.mach with
    | .error e => .error e
    | .ok m => .ok ((List.range st.programAdr).map m.mem)

/-- The error component of a token-loop outcome. -/
def errOf (r : Except (AsmError × St) St) : Option AsmError :=
  match r with
  | .error (e, _) => some e
  | .ok _ => none

/-- The state a token-loop run ends in, whether it failed or not. -/
def stOf (r : Except (AsmError × St) St) : St :=
  match r with
  | .error (_, st) => st
  | .ok st => st

/-- Did the run (failed or not) ever write memory cell `i`? -/
def wroteAt (r : Except (AsmError × St) St) (i : Nat) : Bool :=
  ((stOf r).mach.writes).contains i

/-- The addressing-mode categories of the design, plus `Unclassified`. -/
inductive AddrMode where
  | Immediate
  | Indexed
  | Absolute
  | Indirect
  | IndirectIndexed
  | IndexedIndirect
  | Unclassified
deriving DecidableEq, Repr

/-- The classification a token receives from the predicate family, tested in
the dispatch order of `handle_opcode_and_operand` (imm, idx, abs, ind,
ind_idx, idx_ind); `is_valid_address` consults the same predicates, so by
their mutual exclusivity both agree on the (at most one) matching mode. -/
def classify (t : List Char) : AddrMode :=
  if is_imm t then .Immediate
  else if is_idx t then .Indexed
  else if is_abs t then .Absolute
  else if is_ind t then .Indirect
  else if is_ind_idx t then .IndirectIndexed
  else if is_idx_ind t then .IndexedIndirect
  else .Unclassified

/-- Lowercase hexadecimal digit characters, indexed by value. -/
def hexChar (v : Nat) : Char :=
  if v < 10 then Char.ofNat (48 + v) else Char.ofNat (87 + v)

/-- Hex value of a digit string (what `strtol` computes before saturation). -/
def hexNat (s : List Char) : Nat :=
  s.foldl (fun a c => 16 * a + hexDigitVal c) 0

deriving instance DecidableEq for Except

/-- The per-(opcode, digit-pair) behaviour of the operand pipeline on the
five surface forms the classifier actually accepts, plus the rejection of
the documented Indirect-Indexed form. -/
abbrev c2clause (i v1 v2 : Nat) : Prop :=
  ((opAt i).a_abs ≠ 0 →
    runAsm [(opAt i).mnemonic, ['$', hexChar v1, hexChar v2]] =
      .ok [(opAt i).a_abs, 16 * v1 + v2]) ∧
  ((opAt i).a_imm ≠ 0 →
    runAsm [(opAt i).mnemonic, ['#', '$', hexChar v1, hexChar v2]] =
      .ok [(opAt i).a_imm, 16 * v1 + v2]) ∧
  ((opAt i).a_idx ≠ 0 →
    runAsm [(opAt i).mnemonic, ['$', hexChar v1, hexChar v2, ',', 'a']] =
      .ok [(opAt i).a_idx, 16 * v1 + v2]) ∧
  ((opAt i).a_ind ≠ 0 → v2 ≠ 10 →
    runAsm [(opAt i).mnemonic, ['(', '$', hexChar v1, hexChar v2, ')']] =
      .ok [(opAt i).a_ind, 16 * v1 + v2]) ∧
  ((opAt i).a_idx_ind ≠ 0 →
    runAsm [(opAt i).mnemonic, ['(', '$', hexChar v1, hexChar v2, ',', 'a', ')']] =
      .ok [(opAt i).a_idx_ind, 16 * v1 + v2]) ∧
  ((opAt i).a_ind_idx ≠ 0 → (opAt i).a_label = 0 →
    runAsm [(opAt i).mnemonic, ['(', '$', hexChar v1, hexChar v2, ')', ',', 'a']] =
      .error .InvalidOperand)


/-- C1: assembling `sec` / `lda #$0A` / `sta $20` / `rts` succeeds and
produces exactly the 8-byte image `[0xa0, 0x00, 0x06, 0x0a, 0x2c, 0x20,
0xd1, 0x00]`: the catalog's sec/implicit, lda/immediate, sta/absolute and
rts/implicit bytes, each followed by its operand byte (0x00 for the
implicit instructions), in source order. -/
theorem C1_end_to_end :
    runAsm [['s','e','c'], ['l','d','a'], ['#','$','0','A'],
            ['s','t','a'], ['$','2','0'], ['r','t','s']] =
      .ok [0xa0, 0x00, 0x06, 0x0a, 0x2c, 0x20, 0xd1, 0x00] := rfl

/-- C7: the resolver patches each forward reference with the referenced
label's address, for labels declared after (`jmp loop` / `loop:` / `clc`:
the jump's operand byte, image byte 1, equals 2, the image address of the
`clc`) or before (`loop:` / `clc` / `jmp loop`: operand byte 0) their
reference, and a reference to an undeclared label fails with
`UndefinedLabel`, producing no output artifact (the pipeline result is an
error, not an image). -/
theorem C7_resolver :
    runAsm [['j','m','p'], ['l','o','o','p'], ['l','o','o','p',':'],
            ['c','l','c']] = .ok [0xb8, 0x02, 0xa2, 0x00] ∧
    runAsm [['l','o','o','p',':'], ['c','l','c'],
            ['j','m','p'], ['l','o','o','p']] = .ok [0xa2, 0x00, 0xb8, 0x00] ∧
    runAsm [['j','m','p'], ['n','o','p','e']] = .error .UndefinedLabel :=
  ⟨rfl, rfl, rfl⟩

/-- C10: an operand that is only decoration with an empty hex literal
(`lda #$`) is not rejected: the empty remainder passes `is_hex_str`
vacuously, parses to 0, and the instruction is emitted as `[0x06, 0x00]`
instead of failing with `InvalidAddressFormat`. -/
theorem C10_empty_literal :
    is_hex_str [] = true ∧
    runAsm [['l','d','a'], ['#','$']] = .ok [0x06, 0x00] :=
  ⟨rfl, rfl⟩

set_option maxRecDepth 4000 in
/-- C4: evaluating the code at the failing input. A source of 129
single-opcode instructions fails with `ProgramTooLarge` — but only after
the 129th instruction's two bytes were written at indices 256 and 257,
past the end of the 256-byte `program` array (the loop checks
`program_adr > 256` only after emitting); 128 instructions stay below
index 256. -/
theorem C4_overflow_write :
    errOf (processTokens (List.replicate 129 ['c','l','c']) initSt) =
      some .ProgramTooLarge ∧
    wroteAt (processTokens (List.replicate 129 ['c','l','c']) initSt) 256 = true ∧
    wroteAt (processTokens (List.replicate 129 ['c','l','c']) initSt) 257 = true ∧
    errOf (processTokens (List.replicate 128 ['c','l','c']) initSt) = none ∧
    wroteAt (processTokens (List.replicate 128 ['c','l','c']) initSt) 256 = false :=
  ⟨rfl, rfl, rfl, rfl, rfl⟩

set_option maxRecDepth 4000 in
/-- C5: evaluating the code at the failing inputs.  The table-bound checks
compare with `>` instead of `≥`: a 34th label declaration fails with
`LabelTableFull` but only after a 33rd entry was stored into the 32-entry
`label_table` (and 33 declarations succeed outright); a 66th label operand
fails with `JumpTableFull` after a 65th entry was stored into the 64-entry
`jump_table` (and 65 succeed).  The length bound behaves as claimed: a
33-character label name fails with `LabelTooLong` and stores nothing. -/
theorem C5_table_bounds :
    errOf (processTokens (List.replicate 34 ['x',':']) initSt) =
      some .LabelTableFull ∧
    (stOf (processTokens (List.replicate 34 ['x',':']) initSt)).labelTable.length
      = 33 ∧
    errOf (processTokens (List.replicate 33 ['x',':']) initSt) = none ∧
    errOf (processTokens ((List.replicate 66 [['j','m','p'], ['x']]).flatten) initSt)
      = some .JumpTableFull ∧
    (stOf (processTokens ((List.replicate 66 [['j','m','p'], ['x']]).flatten)
        initSt)).jumpTable.length = 65 ∧
    errOf (processTokens ((List.replicate 65 [['j','m','p'], ['x']]).flatten) initSt)
      = none ∧
    errOf (processTokens [List.replicate 33 'q' ++ [':']] initSt) =
      some .LabelTooLong ∧
    (stOf (processTokens [List.replicate 33 'q' ++ [':']] initSt)).labelTable
      = [] :=
  ⟨rfl, rfl, rfl, rfl, rfl, rfl, rfl, rfl⟩

/-- C2 counterexample: three concrete divergences from the claim.  For the
supported pair (ldb, Indirect-Indexed) the syntactically valid operand
`($12),a` with value 0x12 ∈ [0,255] does not assemble to `[0x1e, 0x12]`
but fails with `InvalidOperand`; for (lda, Indirect) the valid operand
`($3a)` fails the same way (its last hex digit collides with the `a` the
classifier tests for); and `lda #$100000000`, whose parsed value 2^32 lies
outside [0,255], does not fail with `InvalidAddressRange` but assembles to
`[0x06, 0x00]` through the 32-bit narrowing of `(int) strtol(...)`. -/
theorem C2_counterexample :
    runAsm [['l','d','b'], ['(','$','1','2',')',',','a']] =
      .error .InvalidOperand ∧
    runAsm [['l','d','a'], ['(','$','3','a',')']] = .error .InvalidOperand ∧
    runAsm [['l','d','a'], ['#','$','1','0','0','0','0','0','0','0','0']] =
      .ok [0x06, 0x00] :=
  ⟨rfl, rfl, rfl⟩

/-- C3 counterexample: the documented Indirect-Indexed form `($12),a`
matches no predicate (`is_ind_idx` demands `token[len-3] ≠ ')'`), a bare
`#` prefix with no `$`-hex literal still classifies as Immediate
(`is_imm` tests only `token[0]`), and `($3a)` is not Indirect (`is_ind`
demands `token[len-2] ≠ 'a'`, colliding with a hex digit). -/
theorem C3_counterexample :
    classify ['(','$','1','2',')',',','a'] = .Unclassified ∧
    classify ['#','z'] = .Immediate ∧
    classify ['(','$','3','a',')'] = .Unclassified :=
  ⟨rfl, rfl, rfl⟩

/-- C6 counterexample: declaring the same label twice is accepted and
stores two entries with the same name — the Label Table does not stay
duplicate-free. -/
theorem C6_counterexample :
    errOf (processTokens [['x',':'], ['x',':']] initSt) = none ∧
    (stOf (processTokens [['x',':'], ['x',':']] initSt)).labelTable =
      [(0, ['x']), (0, ['x'])] :=
  ⟨rfl, rfl⟩

/-- C8 counterexample: when `lda #$zz` is rejected with
`InvalidAddressFormat`, the mode byte has already been written into the
Program Image at index 0 (the operand slot, index 1, is untouched). -/
theorem C8_counterexample :
    errOf (processTokens [['l','d','a'], ['#','$','z','z']] initSt) =
      some .InvalidAddressFormat ∧
    wroteAt (processTokens [['l','d','a'], ['#','$','z','z']] initSt) 0 = true ∧
    wroteAt (processTokens [['l','d','a'], ['#','$','z','z']] initSt) 1 = false :=
  ⟨rfl, rfl, rfl⟩

/-- C9 counterexample: on the token `$` (length 1), `is_abs` reads
`token[strlen(token) - 2]`, an index outside the token — the embedded
lookup returns `none`. -/
theorem C9_counterexample : is_abs? ['$'] = none := rfl


lemma cidx_cons_zero (c : Char) (cs : List Char) : cidx (c :: cs) 0 = some c := by
  simp [cidx]

lemma is_abs_true {t : List Char} (h : is_abs? t = some true) :
    cidx t 0 = some '$' ∧ ∃ c, cidx t ((t.length : Int) - 2) = some c ∧ c ≠ ',' := by
  simp only [is_abs?, bind, Option.bind_eq_some] at h
  obtain ⟨c0, hc0, h⟩ := h
  by_cases h0 : c0 = '$'
  · subst h0
    rw [if_pos rfl] at h
    simp only [Option.bind_eq_some] at h
    obtain ⟨c1, hc1, h⟩ := h
    refine ⟨hc0, c1, hc1, ?_⟩
    simpa using h
  · rw [if_neg h0] at h
    simp at h

lemma is_abs_head {c : Char} (cs : List Char) (h : c ≠ '$') :
    is_abs (c :: cs) = false := by
  simp [is_abs, is_abs?, cidx_cons_zero, h]

lemma is_imm_head {c : Char} (cs : List Char) (h : c ≠ '#') :
    is_imm (c :: cs) = false := by
  simp [is_imm, is_imm?, cidx_cons_zero, h]

lemma is_imm_hash (cs : List Char) : is_imm ('#' :: cs) = true := by
  simp [is_imm, is_imm?, cidx_cons_zero]


lemma is_idx_true {t : List Char} (h : is_idx? t = some true) :
    cidx t 0 = some '$' ∧ cidx t ((t.length : Int) - 2) = some ',' ∧
      cidx t ((t.length : Int) - 1) = some 'a' := by
  simp only [is_idx?, bind, Option.bind_eq_some] at h
  obtain ⟨c0, hc0, h⟩ := h
  by_cases h0 : c0 = '$'
  · subst h0
    rw [if_pos rfl] at h
    simp only [Option.bind_eq_some] at h
    obtain ⟨c1, hc1, h⟩ := h
    by_cases h1 : c1 = ','
    · subst h1
      rw [if_pos rfl] at h
      simp only [Option.bind_eq_some] at h
      obtain ⟨c2, hc2, h⟩ := h
      simp only [pure, Option.some.injEq] at h
      have hc : c2 = 'a' := of_decide_eq_true h
      exact ⟨hc0, hc1, hc ▸ hc2⟩
    · rw [if_neg h1] at h
      simp at h
  · rw [if_neg h0] at h
    simp at h


lemma is_idx_head {c : Char} (cs : List Char) (h : c ≠ '$') :
    is_idx (c :: cs) = false := by
  simp [is_idx, is_idx?, cidx_cons_zero, h]

lemma is_ind_head {c : Char} (cs : List Char) (h : c ≠ '(') :
    is_ind (c :: cs) = false := by
  simp [is_ind, is_ind?, cidx_cons_zero, h]

lemma is_ind_idx_head {c : Char} (cs : List Char) (h : c ≠ '(') :
    is_ind_idx (c :: cs) = false := by
  simp [is_ind_idx, is_ind_idx?, cidx_cons_zero, h]

lemma is_idx_ind_head {c : Char} (cs : List Char) (h : c ≠ '(') :
    is_idx_ind (c :: cs) = false := by
  simp [is_idx_ind, is_idx_ind?, cidx_cons_zero, h]

lemma is_idx_ind_true {t : List Char} (h : is_idx_ind? t = some true) :
    cidx t 0 = some '(' ∧ cidx t 1 = some '$' ∧
      cidx t ((t.length : Int) - 3) = some ',' ∧
      cidx t ((t.length : Int) - 2) = some 'a' ∧
      cidx t ((t.length : Int) - 1) = some ')' := by
  simp only [is_idx_ind?, bind, Option.bind_eq_some] at h
  obtain ⟨c0, hc0, h⟩ := h
  by_cases h0 : c0 = '(' <;> [skip; (rw [if_neg h0] at h; simp at h)]
  subst h0
  rw [if_pos rfl] at h
  simp only [Option.bind_eq_some] at h
  obtain ⟨c1, hc1, h⟩ := h
  by_cases h1 : c1 = '$' <;> [skip; (rw [if_neg h1] at h; simp at h)]
  subst h1
  rw [if_pos rfl] at h
  simp only [Option.bind_eq_some] at h
  obtain ⟨c2, hc2, h⟩ := h
  by_cases h2 : c2 = ',' <;> [skip; (rw [if_neg h2] at h; simp at h)]
  subst h2
  rw [if_pos rfl] at h
  simp only [Option.bind_eq_some] at h
  obtain ⟨c3, hc3, h⟩ := h
  by_cases h3 : c3 = 'a' <;> [skip; (rw [if_neg h3] at h; simp at h)]
  subst h3
  rw [if_pos rfl] at h
  simp only [Option.bind_eq_some] at h
  obtain ⟨c4, hc4, h⟩ := h
  simp only [pure, Option.some.injEq] at h
  have hc : c4 = ')' := of_decide_eq_true h
  exact ⟨hc0, hc1, hc2, hc3, hc ▸ hc4⟩

lemma is_ind_true {t : List Char} (h : is_ind? t = some true) :
    cidx t 0 = some '(' ∧ cidx t 1 = some '$' ∧
      (∃ c2, cidx t ((t.length : Int) - 3) = some c2 ∧ c2 ≠ ',') ∧
      (∃ c3, cidx t ((t.length : Int) - 2) = some c3 ∧ c3 ≠ 'a') ∧
      cidx t ((t.length : Int) - 1) = some ')' := by
  simp only [is_ind?, bind, Option.bind_eq_some] at h
  obtain ⟨c0, hc0, h⟩ := h
  by_cases h0 : c0 = '(' <;> [skip; (rw [if_neg h0] at h; simp at h)]
  subst h0
  rw [if_pos rfl] at h
  simp only [Option.bind_eq_some] at h
  obtain ⟨c1, hc1, h⟩ := h
  by_cases h1 : c1 = '$' <;> [skip; (rw [if_neg h1] at h; simp at h)]
  subst h1
  rw [if_pos rfl] at h
  simp only [Option.bind_eq_some] at h
  obtain ⟨c2, hc2, h⟩ := h
  by_cases h2 : c2 ≠ ',' <;> [skip; (rw [if_neg h2] at h; simp at h)]
  rw [if_pos h2] at h
  simp only [Option.bind_eq_some] at h
  obtain ⟨c3, hc3, h⟩ := h
  by_cases h3 : c3 ≠ 'a' <;> [skip; (rw [if_neg h3] at h; simp at h)]
  rw [if_pos h3] at h
  simp only [Option.bind_eq_some] at h
  obtain ⟨c4, hc4, h⟩ := h
  simp only [pure, Option.some.injEq] at h
  have hc : c4 = ')' := of_decide_eq_true h
  exact ⟨hc0, hc1, ⟨c2, hc2, h2⟩, ⟨c3, hc3, h3⟩, hc ▸ hc4⟩

lemma is_ind_idx_true {t : List Char} (h : is_ind_idx? t = some true) :
    cidx t 0 = some '(' ∧ cidx t 1 = some '$' ∧
      (∃ c2, cidx t ((t.length : Int) - 3) = some c2 ∧ c2 ≠ ')') ∧
      (∃ c3, cidx t ((t.length : Int) - 2) = some c3 ∧ c3 ≠ ',') ∧
      cidx t ((t.length : Int) - 1) = some 'a' := by
  simp only [is_ind_idx?, bind, Option.bind_eq_some] at h
  obtain ⟨c0, hc0, h⟩ := h
  by_cases h0 : c0 = '(' <;> [skip; (rw [if_neg h0] at h; simp at h)]
  subst h0
  rw [if_pos rfl] at h
  simp only [Option.bind_eq_some] at h
  obtain ⟨c1, hc1, h⟩ := h
  by_cases h1 : c1 = '$' <;> [skip; (rw [if_neg h1] at h; simp at h)]
  subst h1
  rw [if_pos rfl] at h
  simp only [Option.bind_eq_some] at h
  obtain ⟨c2, hc2, h⟩ := h
  by_cases h2 : c2 ≠ ')' <;> [skip; (rw [if_neg h2] at h; simp at h)]
  rw [if_pos h2] at h
  simp only [Option.bind_eq_some] at h
  obtain ⟨c3, hc3, h⟩ := h
  by_cases h3 : c3 ≠ ',' <;> [skip; (rw [if_neg h3] at h; simp at h)]
  rw [if_pos h3] at h
  simp only [Option.bind_eq_some] at h
  obtain ⟨c4, hc4, h⟩ := h
  simp only [pure, Option.some.injEq] at h
  have hc : c4 = 'a' := of_decide_eq_true h
  exact ⟨hc0, hc1, ⟨c2, hc2, h2⟩, ⟨c3, hc3, h3⟩, hc ▸ hc4⟩

lemma is_imm_true {t : List Char} (h : is_imm? t = some true) :
    cidx t 0 = some '#' := by
  simp only [is_imm?, bind, Option.bind_eq_some] at h
  obtain ⟨c0, hc0, h⟩ := h
  simp only [pure, Option.some.injEq] at h
  have hc : c0 = '#' := of_decide_eq_true h
  exact hc ▸ hc0


lemma cidx_uniq {t : List Char} {i : Int} {c d : Char}
    (h1 : cidx t i = some c) (h2 : cidx t i = some d) : c = d := by
  rw [h1] at h2
  exact Option.some.inj h2

lemma classify_of_imm {t : List Char} (h : is_imm t = true) :
    classify t = .Immediate := by
  simp [classify, h]

lemma classify_of_idx {t : List Char} (h : is_idx t = true) :
    classify t = .Indexed := by
  have hx := is_idx_true (of_decide_eq_true h)
  have himm : is_imm t = false := by
    cases hv : is_imm t
    · rfl
    · exact absurd (cidx_uniq (is_imm_true (of_decide_eq_true hv)) hx.1) (by decide)
  simp [classify, himm, h]

lemma classify_of_abs {t : List Char} (h : is_abs t = true) :
    classify t = .Absolute := by
  have hx := is_abs_true (of_decide_eq_true h)
  obtain ⟨h0, c, hc, hcne⟩ := hx
  have himm : is_imm t = false := by
    cases hv : is_imm t
    · rfl
    · exact absurd (cidx_uniq (is_imm_true (of_decide_eq_true hv)) h0) (by decide)
  have hidx : is_idx t = false := by
    cases hv : is_idx t
    · rfl
    · exact absurd (cidx_uniq (is_idx_true (of_decide_eq_true hv)).2.1 hc) (fun he => hcne he.symm)
  simp [classify, himm, hidx, h]

lemma classify_of_ind {t : List Char} (h : is_ind t = true) :
    classify t = .Indirect := by
  obtain ⟨h0, h1, _, _, h4⟩ := is_ind_true (of_decide_eq_true h)
  have himm : is_imm t = false := by
    cases hv : is_imm t
    · rfl
    · exact absurd (cidx_uniq (is_imm_true (of_decide_eq_true hv)) h0) (by decide)
  have hidx : is_idx t = false := by
    cases hv : is_idx t
    · rfl
    · exact absurd (cidx_uniq (is_idx_true (of_decide_eq_true hv)).1 h0) (by decide)
  have habs : is_abs t = false := by
    cases hv : is_abs t
    · rfl
    · exact absurd (cidx_uniq (is_abs_true (of_decide_eq_true hv)).1 h0) (by decide)
  simp [classify, himm, hidx, habs, h]

lemma classify_of_ind_idx {t : List Char} (h : is_ind_idx t = true) :
    classify t = .IndirectIndexed := by
  obtain ⟨h0, h1, _, _, h4⟩ := is_ind_idx_true (of_decide_eq_true h)
  have himm : is_imm t = false := by
    cases hv : is_imm t
    · rfl
    · exact absurd (cidx_uniq (is_imm_true (of_decide_eq_true hv)) h0) (by decide)
  have hidx : is_idx t = false := by
    cases hv : is_idx t
    · rfl
    · exact absurd (cidx_uniq (is_idx_true (of_decide_eq_true hv)).1 h0) (by decide)
  have habs : is_abs t = false := by
    cases hv : is_abs t
    · rfl
    · exact absurd (cidx_uniq (is_abs_true (of_decide_eq_true hv)).1 h0) (by decide)
  have hind : is_ind t = false := by
    cases hv : is_ind t
    · rfl
    · exact absurd (cidx_uniq (is_ind_true (of_decide_eq_true hv)).2.2.2.2 h4) (by decide)
  simp [classify, himm, hidx, habs, hind, h]

lemma classify_of_idx_ind {t : List Char} (h : is_idx_ind t = true) :
    classify t = .IndexedIndirect := by
  obtain ⟨h0, h1, h2, h3, h4⟩ := is_idx_ind_true (of_decide_eq_true h)
  have himm : is_imm t = false := by
    cases hv : is_imm t
    · rfl
    · exact absurd (cidx_uniq (is_imm_true (of_decide_eq_true hv)) h0) (by decide)
  have hidx : is_idx t = false := by
    cases hv : is_idx t
    · rfl
    · exact absurd (cidx_uniq (is_idx_true (of_decide_eq_true hv)).1 h0) (by decide)
  have habs : is_abs t = false := by
    cases hv : is_abs t
    · rfl
    · exact absurd (cidx_uniq (is_abs_true (of_decide_eq_true hv)).1 h0) (by decide)
  have hind : is_ind t = false := by
    cases hv : is_ind t
    · rfl
    · obtain ⟨_, _, ⟨c2, hc2, hc2ne⟩, _, _⟩ := is_ind_true (of_decide_eq_true hv)
      exact absurd (cidx_uniq hc2 h2) hc2ne
  have hii : is_ind_idx t = false := by
    cases hv : is_ind_idx t
    · rfl
    · exact absurd (cidx_uniq (is_ind_idx_true (of_decide_eq_true hv)).2.2.2.2 h4) (by decide)
  simp [classify, himm, hidx, habs, hind, hii, h]


lemma classify_hash {t : List Char} (h : cidx t 0 = some '#') :
    classify t = .Immediate := by
  have : is_imm t = true := by simp [is_imm, is_imm?, h]
  exact classify_of_imm this

lemma c3bulk :
    ∀ v1, v1 < 16 → ∀ v2, v2 < 16 →
      classify ['$', hexChar v1, hexChar v2] = .Absolute ∧
      classify ['$', hexChar v1, hexChar v2, ',', 'a'] = .Indexed ∧
      classify ['#', '$', hexChar v1, hexChar v2] = .Immediate ∧
      (v2 ≠ 10 → classify ['(', '$', hexChar v1, hexChar v2, ')'] = .Indirect) ∧
      (v2 = 10 → classify ['(', '$', hexChar v1, hexChar v2, ')'] = .Unclassified) ∧
      classify ['(', '$', hexChar v1, hexChar v2, ',', 'a', ')'] = .IndexedIndirect ∧
      classify ['(', '$', hexChar v1, hexChar v2, ')', ',', 'a'] = .Unclassified := by
  decide


lemma cidx_isSome {t : List Char} {i : Int} (h0 : 0 ≤ i)
    (h1 : i ≤ (t.length : Int)) : (cidx t i).isSome = true := by
  unfold cidx
  split
  · rfl
  · next hcond =>
    have he : i = (t.length : Int) := by omega
    rw [if_pos he]
    rfl

lemma isSome_bind {α β : Type} {x : Option α} {f : α → Option β}
    (hx : x.isSome = true) (hf : ∀ a, x = some a → (f a).isSome = true) :
    (x.bind f).isSome = true := by
  cases x
  · simp at hx
  · exact hf _ rfl

lemma preds_isSome_len3 {t : List Char} (h : 3 ≤ t.length) :
    (is_abs? t).isSome = true ∧ (is_idx? t).isSome = true ∧
    (is_imm? t).isSome = true ∧ (is_idx_ind? t).isSome = true ∧
    (is_ind? t).isSome = true ∧ (is_ind_idx? t).isSome = true := by
  refine ⟨?_, ?_, ?_, ?_, ?_, ?_⟩
  · simp only [is_abs?, bind]
    apply isSome_bind (cidx_isSome (by omega) (by omega))
    intro c0 _
    split
    · apply isSome_bind (cidx_isSome (by omega) (by omega))
      intro c1 _
      rfl
    · rfl
  · simp only [is_idx?, bind]
    apply isSome_bind (cidx_isSome (by omega) (by omega))
    intro c0 _
    split
    · apply isSome_bind (cidx_isSome (by omega) (by omega))
      intro c1 _
      split
      · apply isSome_bind (cidx_isSome (by omega) (by omega))
        intro c2 _
        rfl
      · rfl
    · rfl
  · simp only [is_imm?, bind]
    apply isSome_bind (cidx_isSome (by omega) (by omega))
    intro c0 _
    rfl
  · simp only [is_idx_ind?, bind]
    apply isSome_bind (cidx_isSome (by omega) (by omega))
    intro c0 _
    split
    · apply isSome_bind (cidx_isSome (by omega) (by omega))
      intro c1 _
      split
      · apply isSome_bind (cidx_isSome (by omega) (by omega))
        intro c2 _
        split
        · apply isSome_bind (cidx_isSome (by omega) (by omega))
          intro c3 _
          split
          · apply isSome_bind (cidx_isSome (by omega) (by omega))
            intro c4 _
            rfl
          · rfl
        · rfl
      · rfl
    · rfl
  · simp only [is_ind?, bind]
    apply isSome_bind (cidx_isSome (by omega) (by omega))
    intro c0 _
    split
    · apply isSome_bind (cidx_isSome (by omega) (by omega))
      intro c1 _
      split
      · apply isSome_bind (cidx_isSome (by omega) (by omega))
        intro c2 _
        split
        · apply isSome_bind (cidx_isSome (by omega) (by omega))
          intro c3 _
          split
          · apply isSome_bind (cidx_isSome (by omega) (by omega))
            intro c4 _
            rfl
          · rfl
        · rfl
      · rfl
    · rfl
  · simp only [is_ind_idx?, bind]
    apply isSome_bind (cidx_isSome (by omega) (by omega))
    intro c0 _
    split
    · apply isSome_bind (cidx_isSome (by omega) (by omega))
      intro c1 _
      split
      · apply isSome_bind (cidx_isSome (by omega) (by omega))
        intro c2 _
        split
        · apply isSome_bind (cidx_isSome (by omega) (by omega))
          intro c3 _
          split
          · apply isSome_bind (cidx_isSome (by omega) (by omega))
            intro c4 _
            rfl
          · rfl
        · rfl
      · rfl
    · rfl


lemma cidx_cons_one (a b : Char) (cs : List Char) : cidx (a :: b :: cs) 1 = some b := by
  simp [cidx]

lemma absidx_isSome_len2 {t : List Char} (h : 2 ≤ t.length) :
    (is_abs? t).isSome = true ∧ (is_idx? t).isSome = true ∧
      (is_imm? t).isSome = true := by
  refine ⟨?_, ?_, ?_⟩
  · simp only [is_abs?, bind]
    apply isSome_bind (cidx_isSome (by omega) (by omega))
    intro c0 _
    split
    · apply isSome_bind (cidx_isSome (by omega) (by omega))
      intro c1 _
      rfl
    · rfl
  · simp only [is_idx?, bind]
    apply isSome_bind (cidx_isSome (by omega) (by omega))
    intro c0 _
    split
    · apply isSome_bind (cidx_isSome (by omega) (by omega))
      intro c1 _
      split
      · apply isSome_bind (cidx_isSome (by omega) (by omega))
        intro c2 _
        rfl
      · rfl
    · rfl
  · simp only [is_imm?, bind]
    apply isSome_bind (cidx_isSome (by omega) (by omega))
    intro c0 _
    rfl

lemma paren_isSome_len2 {c1 c2 : Char} (h : ¬(c1 = '(' ∧ c2 = '$')) :
    (is_idx_ind? [c1, c2]).isSome = true ∧ (is_ind? [c1, c2]).isSome = true ∧
      (is_ind_idx? [c1, c2]).isSome = true := by
  by_cases hp : c1 = '('
  · have hq : c2 ≠ '$' := fun he => h ⟨hp, he⟩
    subst hp
    refine ⟨?_, ?_, ?_⟩
    · simp [is_idx_ind?, cidx_cons_zero, cidx_cons_one, hq]
    · simp [is_ind?, cidx_cons_zero, cidx_cons_one, hq]
    · simp [is_ind_idx?, cidx_cons_zero, cidx_cons_one, hq]
  · refine ⟨?_, ?_, ?_⟩
    · simp [is_idx_ind?, cidx_cons_zero, hp]
    · simp [is_ind?, cidx_cons_zero, hp]
    · simp [is_ind_idx?, cidx_cons_zero, hp]

lemma preds_isSome_len1 {c : Char} (h : c ≠ '$') :
    (is_abs? [c]).isSome = true ∧ (is_idx? [c]).isSome = true ∧
    (is_imm? [c]).isSome = true ∧ (is_idx_ind? [c]).isSome = true ∧
    (is_ind? [c]).isSome = true ∧ (is_ind_idx? [c]).isSome = true := by
  refine ⟨?_, ?_, ?_, ?_, ?_, ?_⟩
  · simp [is_abs?, cidx_cons_zero, h]
  · simp [is_idx?, cidx_cons_zero, h]
  · simp [is_imm?, cidx_cons_zero]
  · by_cases hp : c = '('
    · subst hp
      decide
    · simp [is_idx_ind?, cidx_cons_zero, hp]
  · by_cases hp : c = '('
    · subst hp
      decide
    · simp [is_ind?, cidx_cons_zero, hp]
  · by_cases hp : c = '('
    · subst hp
      decide
    · simp [is_ind_idx?, cidx_cons_zero, hp]


lemma stOf_checkSize (s : St) : stOf (checkSize s) = s := by
  unfold checkSize
  split
  · rfl
  · rfl

lemma step_labelTable (st : St) (t : List Char) :
    ∃ r, (stOf (step st t)).labelTable = st.labelTable ++ r := by
  cases hp : st.pending with
  | some opIdx =>
    by_cases hva : is_valid_address (opAt opIdx) t = true
    · cases hh : handle_opcode_and_operand st.mach st.programAdr (opAt opIdx) t with
      | error em =>
        obtain ⟨e, m⟩ := em
        exact ⟨[], by simp [step, hp, hva, hh, stOf]⟩
      | ok m =>
        exact ⟨[], by simp [step, hp, hva, hh, stOf_checkSize]⟩
    · by_cases hl : (opAt opIdx).a_label ≠ 0
      · by_cases hj : st.jumpTable.length > 64
        · exact ⟨[], by simp [step, hp, hva, hl, hj, stOf]⟩
        · by_cases hlen : t.length > 32
          · exact ⟨[], by simp [step, hp, hva, hl, hj, hlen, stOf]⟩
          · exact ⟨[], by simp [step, hp, hva, hl, hj, hlen, stOf_checkSize]⟩
      · exact ⟨[], by simp [step, hp, hva, hl, stOf]⟩
  | none =>
    cases hf : find_opcode_index t with
    | some op =>
      by_cases ha : (opAt op).a = 0
      · exact ⟨[], by simp [step, hp, hf, ha, stOf_checkSize]⟩
      · exact ⟨[], by simp [step, hp, hf, ha, stOf_checkSize]⟩
    | none =>
      by_cases hcolon : t.getLast? = some ':'
      · by_cases hltc : st.labelTable.length > 32
        · exact ⟨[], by simp [step, hp, hf, hcolon, hltc, stOf]⟩
        · by_cases hlen : 32 < t.length - 1
          · exact ⟨[], by simp [step, hp, hf, hcolon, hltc, hlen, stOf]⟩
          · exact ⟨[(st.programAdr, t.dropLast)],
              by simp [step, hp, hf, hcolon, hltc, hlen, stOf_checkSize]⟩
      · exact ⟨[], by simp [step, hp, hf, hcolon, stOf]⟩

lemma processTokens_labelTable (toks : List (List Char)) :
    ∀ st : St, ∃ r, (stOf (processTokens toks st)).labelTable = st.labelTable ++ r := by
  induction toks with
  | nil => exact fun st => ⟨[], by simp [processTokens, stOf]⟩
  | cons t ts ih =>
    intro st
    unfold processTokens
    split
    · next e heq =>
      obtain ⟨r, hr⟩ := step_labelTable st t
      rw [heq] at hr
      exact ⟨r, hr⟩
    · next st2 heq =>
      obtain ⟨r1, hr1⟩ := step_labelTable st t
      rw [heq] at hr1
      obtain ⟨r2, hr2⟩ := ih st2
      refine ⟨r1 ++ r2, ?_⟩
      rw [hr2]
      rw [show st2.labelTable = st.labelTable ++ r1 from hr1]
      rw [List.append_assoc]


lemma handle_err_writes (m : Mach) (index : Nat) (op : opcode) (addr : List Char)
    (e : AsmError) (m1 : Mach)
    (h : handle_opcode_and_operand m index op addr = .error (e, m1))
    (he : e = .InvalidAddressFormat ∨ e = .InvalidAddressRange) :
    m1.writes = m.writes ++ [index] := by
  unfold handle_opcode_and_operand at h
  cases hbr : branchOf op addr with
  | none =>
    rw [hbr] at h
    injection h with hpair
    injection hpair with h1 h2
    rcases he with rfl | rfl <;> exact absurd h1.symm (by decide)
  | some p =>
    obtain ⟨mb, s⟩ := p
    rw [hbr] at h
    simp only [] at h
    split at h
    · injection h with hpair
      injection hpair with h1 h2
      rw [← h2]
      rfl
    · split at h
      · injection h with hpair
        injection hpair with h1 h2
        rw [← h2]
        rfl
      · exact absurd h (by simp)


lemma opFind : ∀ i, i < 33 → find_opcode_index (opAt i).mnemonic = some i := by
  decide

lemma opNoA : ∀ i, i < 33 →
    ((opAt i).a_abs ≠ 0 ∨ (opAt i).a_imm ≠ 0 ∨ (opAt i).a_idx ≠ 0 ∨
      (opAt i).a_ind ≠ 0 ∨ (opAt i).a_idx_ind ≠ 0 ∨ (opAt i).a_ind_idx ≠ 0) →
    (opAt i).a = 0 := by
  decide

lemma step_mnemonic (i : Nat) (hi : i < 33) (ha : (opAt i).a = 0) :
    step initSt (opAt i).mnemonic = .ok { initSt with pending := some i } := by
  simp [step, initSt, opFind i hi, ha, checkSize]

lemma handle_eval (m : Mach) (index : Nat) (op : opcode) (addr : List Char)
    (mb : Nat) (s : List Char) (hbr : branchOf op addr = some (mb, s)) :
    handle_opcode_and_operand m index op addr =
      if is_hex_str s = false then
        .error (.InvalidAddressFormat, wr m index mb)
      else if toInt32 (strtol16 s) < 0 ∨ toInt32 (strtol16 s) > 255 then
        .error (.InvalidAddressRange, wr m index mb)
      else .ok (wr (wr m index mb) (index + 1) (toInt32 (strtol16 s)).toNat) := by
  unfold handle_opcode_and_operand
  rw [hbr]

lemma step_operand (i : Nat) (st : St) (tok : List Char) (mb : Nat) (s : List Char)
    (hp : st.pending = some i)
    (hva : is_valid_address (opAt i) tok = true)
    (hbr : branchOf (opAt i) tok = some (mb, s))
    (hadr : st.programAdr + 2 ≤ 256) :
    step st tok =
      if is_hex_str s = false then
        .error (.InvalidAddressFormat, { st with mach := wr st.mach st.programAdr mb })
      else if toInt32 (strtol16 s) < 0 ∨ toInt32 (strtol16 s) > 255 then
        .error (.InvalidAddressRange, { st with mach := wr st.mach st.programAdr mb })
      else .ok { st with
        mach := wr (wr st.mach st.programAdr mb) (st.programAdr + 1)
          (toInt32 (strtol16 s)).toNat,
        pending := none, programAdr := st.programAdr + 2 } := by
  simp only [step, hp, hva, if_true, handle_eval st.mach st.programAdr (opAt i) tok mb s hbr]
  by_cases h1 : is_hex_str s = false
  · simp [h1]
  · by_cases h2 : toInt32 (strtol16 s) < 0 ∨ toInt32 (strtol16 s) > 255
    · simp [h1, h2]
    · simp [h1, h2, checkSize]
      omega

lemma runAsm_two (i : Nat) (hi : i < 33) (ha : (opAt i).a = 0)
    (tok : List Char) (mb : Nat) (s : List Char)
    (hva : is_valid_address (opAt i) tok = true)
    (hbr : branchOf (opAt i) tok = some (mb, s)) :
    runAsm [(opAt i).mnemonic, tok] =
      if is_hex_str s = false then .error .InvalidAddressFormat
      else if toInt32 (strtol16 s) < 0 ∨ toInt32 (strtol16 s) > 255 then
        .error .InvalidAddressRange
      else .ok [mb, (toInt32 (strtol16 s)).toNat] := by
  unfold runAsm processTokens
  rw [step_mnemonic i hi ha]
  have hstep := step_operand i { initSt with pending := some i } tok mb s rfl hva hbr
    (by simp [initSt])
  simp only [initSt] at hstep
  by_cases h1 : is_hex_str s = false
  · rw [if_pos h1] at hstep
    rw [if_pos h1]
    simp [processTokens, initSt, hstep]
  · rw [if_neg h1] at hstep
    rw [if_neg h1]
    by_cases h2 : toInt32 (strtol16 s) < 0 ∨ toInt32 (strtol16 s) > 255
    · rw [if_pos h2] at hstep
      rw [if_pos h2]
      simp [processTokens, initSt, hstep]
    · rw [if_neg h2] at hstep
      rw [if_neg h2]
      simp [processTokens, hstep, resolve, initSt, wr, checkSize,
        List.range_succ]

lemma runAsm_invalid (i : Nat) (hi : i < 33) (ha : (opAt i).a = 0)
    (tok : List Char)
    (hva : is_valid_address (opAt i) tok = false)
    (hl : (opAt i).a_label = 0) :
    runAsm [(opAt i).mnemonic, tok] = .error .InvalidOperand := by
  unfold runAsm processTokens
  rw [step_mnemonic i hi ha]
  simp [processTokens, step, hva, hl, initSt]



lemma toInt32_strtol_small {s : List Char} (h : hexNat s < 2 ^ 31) :
    toInt32 (strtol16 s) = (hexNat s : Int) := by
  have hc : ((hexNat s : Nat) : Int) < 2 ^ 31 := by exact_mod_cast h
  have h1 : strtol16 s = (hexNat s : Int) := by
    have he : strtol16 s = min ((hexNat s : Nat) : Int) (2 ^ 63 - 1) := rfl
    rw [he, min_eq_left]
    omega
  rw [h1]
  unfold toInt32
  split
  · omega
  · omega


lemma pf_abs : ∀ v1, v1 < 16 → ∀ v2, v2 < 16 →
    is_abs ['$', hexChar v1, hexChar v2] = true ∧
    is_idx ['$', hexChar v1, hexChar v2] = false := by
  decide

lemma pf_idx : ∀ v1, v1 < 16 → ∀ v2, v2 < 16 →
    is_idx ['$', hexChar v1, hexChar v2, ',', 'a'] = true ∧
    is_abs ['$', hexChar v1, hexChar v2, ',', 'a'] = false := by
  decide

lemma pf_ind : ∀ v1, v1 < 16 → ∀ v2, v2 < 16 → v2 ≠ 10 →
    is_ind ['(', '$', hexChar v1, hexChar v2, ')'] = true := by
  decide

lemma pf_idx_ind : ∀ v1, v1 < 16 → ∀ v2, v2 < 16 →
    is_idx_ind ['(', '$', hexChar v1, hexChar v2, ',', 'a', ')'] = true ∧
    is_ind ['(', '$', hexChar v1, hexChar v2, ',', 'a', ')'] = false ∧
    is_ind_idx ['(', '$', hexChar v1, hexChar v2, ',', 'a', ')'] = false := by
  decide

lemma pf_ind_idx_none : ∀ v1, v1 < 16 → ∀ v2, v2 < 16 →
    is_abs ['(', '$', hexChar v1, hexChar v2, ')', ',', 'a'] = false ∧
    is_idx ['(', '$', hexChar v1, hexChar v2, ')', ',', 'a'] = false ∧
    is_imm ['(', '$', hexChar v1, hexChar v2, ')', ',', 'a'] = false ∧
    is_idx_ind ['(', '$', hexChar v1, hexChar v2, ')', ',', 'a'] = false ∧
    is_ind ['(', '$', hexChar v1, hexChar v2, ')', ',', 'a'] = false ∧
    is_ind_idx ['(', '$', hexChar v1, hexChar v2, ')', ',', 'a'] = false := by
  decide

lemma pf_hex : ∀ v1, v1 < 16 → ∀ v2, v2 < 16 →
    is_hex_str [hexChar v1, hexChar v2] = true ∧
    hexNat [hexChar v1, hexChar v2] = 16 * v1 + v2 := by
  decide

lemma encode_ok (mb : Nat) (s : List Char) (hhex : is_hex_str s = true)
    (hsmall : hexNat s ≤ 255) :
    (if is_hex_str s = false then
      (Except.error .InvalidAddressFormat : Except AsmError (List Nat))
     else if toInt32 (strtol16 s) < 0 ∨ toInt32 (strtol16 s) > 255 then
      .error .InvalidAddressRange
     else .ok [mb, (toInt32 (strtol16 s)).toNat]) = .ok [mb, hexNat s] := by
  have hts := @toInt32_strtol_small s (by omega)
  rw [if_neg (by simp [hhex])]
  rw [if_neg (by rw [hts]; omega)]
  rw [hts]
  simp

lemma emit_abs (i : Nat) (hi : i < 33) (habs : (opAt i).a_abs ≠ 0)
    (v1 v2 : Nat) (hv1 : v1 < 16) (hv2 : v2 < 16) :
    runAsm [(opAt i).mnemonic, ['$', hexChar v1, hexChar v2]] =
      .ok [(opAt i).a_abs, 16 * v1 + v2] := by
  obtain ⟨habs1, hidx1⟩ := pf_abs v1 hv1 v2 hv2
  obtain ⟨hhex, hval⟩ := pf_hex v1 hv1 v2 hv2
  have hva : is_valid_address (opAt i) ['$', hexChar v1, hexChar v2] = true := by
    simp [is_valid_address, habs1, habs]
  have hbr : branchOf (opAt i) ['$', hexChar v1, hexChar v2] =
      some ((opAt i).a_abs, [hexChar v1, hexChar v2]) := by
    simp [branchOf, @is_imm_head '$' _ (by decide), hidx1, habs1]
  rw [runAsm_two i hi (opNoA i hi (Or.inl habs)) _ _ _ hva hbr,
    encode_ok _ _ hhex (by omega), hval]

lemma emit_imm2 (i : Nat) (hi : i < 33) (himm : (opAt i).a_imm ≠ 0)
    (v1 v2 : Nat) (hv1 : v1 < 16) (hv2 : v2 < 16) :
    runAsm [(opAt i).mnemonic, ['#', '$', hexChar v1, hexChar v2]] =
      .ok [(opAt i).a_imm, 16 * v1 + v2] := by
  obtain ⟨hhex, hval⟩ := pf_hex v1 hv1 v2 hv2
  have hva : is_valid_address (opAt i) ['#', '$', hexChar v1, hexChar v2] = true := by
    simp [is_valid_address, @is_abs_head '#' _ (by decide),
      @is_ind_head '#' _ (by decide), is_imm_hash, himm]
  have hbr : branchOf (opAt i) ['#', '$', hexChar v1, hexChar v2] =
      some ((opAt i).a_imm, [hexChar v1, hexChar v2]) := by
    simp [branchOf, is_imm_hash]
  rw [runAsm_two i hi (opNoA i hi (Or.inr (Or.inl himm))) _ _ _ hva hbr,
    encode_ok _ _ hhex (by omega), hval]

lemma emit_idx (i : Nat) (hi : i < 33) (hidx : (opAt i).a_idx ≠ 0)
    (v1 v2 : Nat) (hv1 : v1 < 16) (hv2 : v2 < 16) :
    runAsm [(opAt i).mnemonic, ['$', hexChar v1, hexChar v2, ',', 'a']] =
      .ok [(opAt i).a_idx, 16 * v1 + v2] := by
  obtain ⟨hidx1, habs1⟩ := pf_idx v1 hv1 v2 hv2
  obtain ⟨hhex, hval⟩ := pf_hex v1 hv1 v2 hv2
  have hva : is_valid_address (opAt i) ['$', hexChar v1, hexChar v2, ',', 'a'] = true := by
    simp [is_valid_address, habs1, hidx1, hidx,
      @is_ind_head '$' _ (by decide), @is_imm_head '$' _ (by decide),
      @is_ind_idx_head '$' _ (by decide), @is_idx_ind_head '$' _ (by decide)]
  have hbr : branchOf (opAt i) ['$', hexChar v1, hexChar v2, ',', 'a'] =
      some ((opAt i).a_idx, [hexChar v1, hexChar v2]) := by
    simp [branchOf, @is_imm_head '$' _ (by decide), hidx1]
  rw [runAsm_two i hi (opNoA i hi (Or.inr (Or.inr (Or.inl hidx)))) _ _ _ hva hbr,
    encode_ok _ _ hhex (by omega), hval]

lemma emit_ind (i : Nat) (hi : i < 33) (hind : (opAt i).a_ind ≠ 0)
    (v1 v2 : Nat) (hv1 : v1 < 16) (hv2 : v2 < 16) (hv2a : v2 ≠ 10) :
    runAsm [(opAt i).mnemonic, ['(', '$', hexChar v1, hexChar v2, ')']] =
      .ok [(opAt i).a_ind, 16 * v1 + v2] := by
  have hind1 := pf_ind v1 hv1 v2 hv2 hv2a
  obtain ⟨hhex, hval⟩ := pf_hex v1 hv1 v2 hv2
  have hva : is_valid_address (opAt i) ['(', '$', hexChar v1, hexChar v2, ')'] = true := by
    simp [is_valid_address, @is_abs_head '(' _ (by decide), hind1, hind]
  have hbr : branchOf (opAt i) ['(', '$', hexChar v1, hexChar v2, ')'] =
      some ((opAt i).a_ind, [hexChar v1, hexChar v2]) := by
    simp [branchOf, @is_imm_head '(' _ (by decide), @is_idx_head '(' _ (by decide),
      @is_abs_head '(' _ (by decide), hind1]
  rw [runAsm_two i hi (opNoA i hi (Or.inr (Or.inr (Or.inr (Or.inl hind))))) _ _ _ hva hbr,
    encode_ok _ _ hhex (by omega), hval]

lemma emit_idx_ind (i : Nat) (hi : i < 33) (hii : (opAt i).a_idx_ind ≠ 0)
    (v1 v2 : Nat) (hv1 : v1 < 16) (hv2 : v2 < 16) :
    runAsm [(opAt i).mnemonic, ['(', '$', hexChar v1, hexChar v2, ',', 'a', ')']] =
      .ok [(opAt i).a_idx_ind, 16 * v1 + v2] := by
  obtain ⟨hii1, hind1, hni1⟩ := pf_idx_ind v1 hv1 v2 hv2
  obtain ⟨hhex, hval⟩ := pf_hex v1 hv1 v2 hv2
  have hva : is_valid_address (opAt i)
      ['(', '$', hexChar v1, hexChar v2, ',', 'a', ')'] = true := by
    simp [is_valid_address, @is_abs_head '(' _ (by decide), hind1, hni1,
      @is_imm_head '(' _ (by decide), hii1, hii]
  have hbr : branchOf (opAt i) ['(', '$', hexChar v1, hexChar v2, ',', 'a', ')'] =
      some ((opAt i).a_idx_ind, [hexChar v1, hexChar v2]) := by
    simp [branchOf, @is_imm_head '(' _ (by decide), @is_idx_head '(' _ (by decide),
      @is_abs_head '(' _ (by decide), hind1, hni1, hii1]
  rw [runAsm_two i hi (opNoA i hi (Or.inr (Or.inr (Or.inr (Or.inr (Or.inl hii))))))
    _ _ _ hva hbr, encode_ok _ _ hhex (by omega), hval]

lemma emit_rej (i : Nat) (hi : i < 33) (hni : (opAt i).a_ind_idx ≠ 0)
    (hl : (opAt i).a_label = 0)
    (v1 v2 : Nat) (hv1 : v1 < 16) (hv2 : v2 < 16) :
    runAsm [(opAt i).mnemonic, ['(', '$', hexChar v1, hexChar v2, ')', ',', 'a']] =
      .error .InvalidOperand := by
  obtain ⟨f1, f2, f3, f4, f5, f6⟩ := pf_ind_idx_none v1 hv1 v2 hv2
  have hva : is_valid_address (opAt i)
      ['(', '$', hexChar v1, hexChar v2, ')', ',', 'a'] = false := by
    simp [is_valid_address, f1, f2, f3, f4, f5, f6]
  exact runAsm_invalid i hi (opNoA i hi (Or.inr (Or.inr (Or.inr (Or.inr (Or.inr hni))))))
    _ hva hl

lemma imm_va (i : Nat) (himm : (opAt i).a_imm ≠ 0) (rest : List Char) :
    is_valid_address (opAt i) ('#' :: '$' :: rest) = true := by
  simp [is_valid_address, @is_abs_head '#' ('$' :: rest) (by decide),
    @is_ind_head '#' ('$' :: rest) (by decide), is_imm_hash, himm]

lemma imm_br (i : Nat) (rest : List Char) :
    branchOf (opAt i) ('#' :: '$' :: rest) = some ((opAt i).a_imm, rest) := by
  simp [branchOf, is_imm_hash]

/-- C2 (amended): for every supported (mnemonic, mode) pair among Absolute,
Immediate, Indexed, Indirect (digits not ending in the letter `a`) and
Indexed-Indirect, a two-hex-digit operand of that mode's form with value
`v` assembles to `[mode_byte, v]`; the documented Indirect-Indexed form
`($hh),a` is never classified and is rejected (`InvalidOperand`) when the
mnemonic has no label fallback; a non-hex remainder fails with
`InvalidAddressFormat`; a hex literal with value in `[256, 2^31)` fails
with `InvalidAddressRange` (values ≥ 2^32 can wrap into range through the
`(int) strtol` narrowing instead). -/
theorem C2_amended :
    (∀ i, i < 33 → ∀ v1, v1 < 16 → ∀ v2, v2 < 16 → c2clause i v1 v2) ∧
    (∀ i, i < 33 → (opAt i).a_imm ≠ 0 → ∀ rest, is_hex_str rest = false →
      runAsm [(opAt i).mnemonic, '#' :: '$' :: rest] =
        .error .InvalidAddressFormat) ∧
    (∀ i, i < 33 → (opAt i).a_imm ≠ 0 → ∀ rest, is_hex_str rest = true →
      255 < hexNat rest → hexNat rest < 2 ^ 31 →
      runAsm [(opAt i).mnemonic, '#' :: '$' :: rest] =
        .error .InvalidAddressRange) := by
  refine ⟨?_, ?_, ?_⟩
  · intro i hi v1 hv1 v2 hv2
    exact ⟨fun h => emit_abs i hi h v1 v2 hv1 hv2,
      fun h => emit_imm2 i hi h v1 v2 hv1 hv2,
      fun h => emit_idx i hi h v1 v2 hv1 hv2,
      fun h ha => emit_ind i hi h v1 v2 hv1 hv2 ha,
      fun h => emit_idx_ind i hi h v1 v2 hv1 hv2,
      fun h hl => emit_rej i hi h hl v1 v2 hv1 hv2⟩
  · intro i hi himm rest hfmt
    rw [runAsm_two i hi (opNoA i hi (Or.inr (Or.inl himm))) _ _ _
      (imm_va i himm rest) (imm_br i rest), if_pos hfmt]
  · intro i hi himm rest hhex hlo hhi
    have hcond : toInt32 (strtol16 rest) < 0 ∨ toInt32 (strtol16 rest) > 255 :=
      Or.inr (by rw [toInt32_strtol_small hhi]; exact_mod_cast hlo)
    rw [runAsm_two i hi (opNoA i hi (Or.inr (Or.inl himm))) _ _ _
      (imm_va i himm rest) (imm_br i rest), if_neg (by simp [hhex]), if_pos hcond]

theorem C2_amended_witness :
    runAsm [['l','d','a'], ['$','2','0']] = .ok [0x08, 0x20] ∧
    runAsm [['l','d','a'], ['#','$','g']] = .error .InvalidAddressFormat ∧
    runAsm [['l','d','a'], ['#','$','1','0','0']] = .error .InvalidAddressRange :=
  ⟨(C2_amended.1 17 (by decide) 2 (by decide) 0 (by decide)).1 (by decide),
   C2_amended.2.1 17 (by decide) (by decide) ['g'] (by decide),
   C2_amended.2.2 17 (by decide) (by decide) ['1','0','0'] (by decide)
     (by decide) (by decide)⟩

/-- C3 (amended): over two lowercase hex digits, `$hh` is Absolute, `$hh,a`
Indexed, `#$hh` Immediate (indeed any token beginning `#` is Immediate —
the classifier checks only `token[0]`), `($hh)` is Indirect unless the
second digit is the letter `a` (then it is Unclassified), `($hh,a)` is
Indexed-Indirect, and the documented Indirect-Indexed form `($hh),a` is
Unclassified; the predicates are mutually exclusive: whichever predicate
holds determines the classification. -/
theorem C3_amended :
    (∀ v1, v1 < 16 → ∀ v2, v2 < 16 →
      classify ['$', hexChar v1, hexChar v2] = .Absolute ∧
      classify ['$', hexChar v1, hexChar v2, ',', 'a'] = .Indexed ∧
      classify ['#', '$', hexChar v1, hexChar v2] = .Immediate ∧
      (v2 ≠ 10 → classify ['(', '$', hexChar v1, hexChar v2, ')'] = .Indirect) ∧
      (v2 = 10 → classify ['(', '$', hexChar v1, hexChar v2, ')'] = .Unclassified) ∧
      classify ['(', '$', hexChar v1, hexChar v2, ',', 'a', ')'] = .IndexedIndirect ∧
      classify ['(', '$', hexChar v1, hexChar v2, ')', ',', 'a'] = .Unclassified) ∧
    (∀ t, cidx t 0 = some '#' → classify t = .Immediate) ∧
    (∀ t, (is_abs t = true → classify t = .Absolute) ∧
          (is_idx t = true → classify t = .Indexed) ∧
          (is_imm t = true → classify t = .Immediate) ∧
          (is_ind t = true → classify t = .Indirect) ∧
          (is_ind_idx t = true → classify t = .IndirectIndexed) ∧
          (is_idx_ind t = true → classify t = .IndexedIndirect)) :=
  ⟨c3bulk, fun _ h => classify_hash h,
   fun _ => ⟨fun h => classify_of_abs h, fun h => classify_of_idx h,
     fun h => classify_of_imm h, fun h => classify_of_ind h,
     fun h => classify_of_ind_idx h, fun h => classify_of_idx_ind h⟩⟩

theorem C3_amended_witness :
    classify ['$','3','f'] = .Absolute ∧
    classify ['(','$','1','2',')'] = .Indirect ∧
    classify ['#','q'] = .Immediate :=
  ⟨(C3_amended.1 3 (by decide) 15 (by decide)).1,
   (C3_amended.1 1 (by decide) 2 (by decide)).2.2.2.1 (by decide),
   C3_amended.2.1 ['#','q'] rfl⟩

/-- C6 (amended): the Label Table is append-only: across any run of the
token loop, from any state, the resulting label table (of the final state,
whether the run succeeded or aborted) is the original table extended at
the end — recorded entries are never mutated or removed.  (Uniqueness of
names does not hold: see the counterexample.) -/
theorem C6_amended :
    ∀ (toks : List (List Char)) (st : St),
      ∃ r, (stOf (processTokens toks st)).labelTable = st.labelTable ++ r :=
  processTokens_labelTable

/-- C8 (amended): when the Operand Encoder rejects an instruction with
`InvalidAddressFormat` or `InvalidAddressRange`, the operand byte has not
been written — but the mode byte has: the failing call's writes are
exactly the prior writes plus the single mode-byte write at `index`. -/
theorem C8_amended :
    ∀ (m : Mach) (index : Nat) (op : opcode) (addr : List Char)
      (e : AsmError) (m1 : Mach),
      handle_opcode_and_operand m index op addr = .error (e, m1) →
      e = .InvalidAddressFormat ∨ e = .InvalidAddressRange →
      m1.writes = m.writes ++ [index] :=
  handle_err_writes

theorem C8_amended_witness :
    (wr ⟨fun _ => 0, []⟩ 0 0x06).writes = ([] : List Nat) ++ [0] :=
  C8_amended ⟨fun _ => 0, []⟩ 0 (opAt 17) ['#','$','z'] .InvalidAddressFormat
    (wr ⟨fun _ => 0, []⟩ 0 0x06) rfl (Or.inl rfl)

/-- C9 (amended): for every nonempty token other than `$` and `($`, every
classifier predicate evaluates with all its character lookups inside the
token's buffer; on `$` the `is_abs`/`is_idx` length arithmetic reads index
-1, and on `($` the three parenthesis predicates do. -/
theorem C9_amended :
    ∀ t : List Char, t ≠ [] → t ≠ ['$'] → t ≠ ['(', '$'] →
      (is_abs? t).isSome = true ∧ (is_idx? t).isSome = true ∧
      (is_imm? t).isSome = true ∧ (is_idx_ind? t).isSome = true ∧
      (is_ind? t).isSome = true ∧ (is_ind_idx? t).isSome = true := by
  intro t h1 h2 h3
  match t with
  | [c] =>
    exact preds_isSome_len1 (fun he => h2 (by rw [he]))
  | [c1, c2] =>
    have hpq : ¬(c1 = '(' ∧ c2 = '$') := fun hx => h3 (by rw [hx.1, hx.2])
    obtain ⟨ha, hb, hc⟩ := @absidx_isSome_len2 [c1, c2] (by simp)
    obtain ⟨hd, he, hf⟩ := paren_isSome_len2 hpq
    exact ⟨ha, hb, hc, hd, he, hf⟩
  | c1 :: c2 :: c3 :: rest =>
    exact preds_isSome_len3 (by simp)

theorem C9_amended_witness :
    (is_abs? ['#']).isSome = true ∧ (is_idx? ['#']).isSome = true ∧
    (is_imm? ['#']).isSome = true ∧ (is_idx_ind? ['#']).isSome = true ∧
    (is_ind? ['#']).isSome = true ∧ (is_ind_idx? ['#']).isSome = true :=
  C9_amended ['#'] (by decide) (by decide) (by decide)

end Asm8
